import Mathlib

/-!
Shallow embedding of `FlowCoordinator.run` from
`src/TalkWithYourFiles/flow_coordinator.py`.

The coordinator sequences external collaborators (file handler factory,
text processor, QA chain runner) into a linear pipeline.  The collaborators
are opaque to the coordinator, so they are modelled as an environment of
pure functions (`Env`), parameterized over the handler type `η` and the
knowledge-base type `κ`.  Python truthiness is modelled as: a string is
truthy iff non-empty, a list is truthy iff non-empty, and the opaque
knowledge base carries its truthiness through `Env.kb_truthy`.

To state claims about which collaborators are invoked and which return
statement of the source is reached, `run` additionally returns a trace of
collaborator invocations (`Event`) and a tag naming the exit branch
(`ExitPoint`).  These instrument the control flow of the source; the
`output` component is exactly the value the Python function returns
(`none` models the implicit `None` fall-through).
-/

/-- Uploaded file handle: the coordinator only ever reads `file.type`
(to resolve a handler) and `file.name` (for the error message). -/
structure File where
  type : String
  name : String
deriving DecidableEq, Repr

/-- Environment of external collaborators, as consumed by the coordinator:
`self.factory.get_file_handler`, `handler.read_file`,
`self.processor.split_text`, `self.processor.create_embeddings`,
`self.runner.get_relative_chunks`, `self.runner.run_chain`.
`kb_truthy` models Python truthiness of the opaque knowledge base object. -/
structure Env (η κ : Type) where
  get_file_handler : String → η
  read_file : η → File → String
  split_text : String → List String
  create_embeddings : List String → κ
  kb_truthy : κ → Bool
  get_relative_chunks : κ → String → List String
  run_chain : List String → String → String

/-- Collaborator invocation, recorded in the trace in call order. -/
inductive Event where
  | getFileHandler (fileType : String)
  | readFile (name : String)
  | splitText (text : String)
  | createEmbeddings (chunks : List String)
  | getRelativeChunks (question : String)
  | runChain (docs : List String) (question : String)
deriving DecidableEq, Repr

/-- Which branch of `run` produced the result. `fallThrough` is the
implicit `None` return when the guard `user_question and files` fails. -/
inductive ExitPoint where
  | tooManyFiles
  | extractionFailure (name : String)
  | emptyCombined
  | chunkingFailure
  | embeddingFailure
  | retrievalFailure
  | success
  | fallThrough
deriving DecidableEq, Repr

/-- Result of `run`: the returned value (`none` for the implicit `None`),
the trace of collaborator invocations, and the exit branch taken. -/
structure RunResult where
  output : Option String
  trace : List Event
  exit : ExitPoint
deriving DecidableEq, Repr

/-- Apostrophe character, used in the literal user-facing messages. -/
def apos : String := String.singleton (Char.ofNat 39)

/-- Message of line 57: "Please upload a maximum of 3 files". -/
def maxFilesMsg : String := "Please upload a maximum of 3 files"

/-- Message of line 68, naming the file that yielded no text. -/
def extractionMsg (name : String) : String :=
  "No text could be extracted from " ++ name ++
    ". Please ensure the file is not encrypted or corrupted."

/-- Message of line 74: generic no-text message. -/
def noTextMsg : String :=
  "No text could be extracted from the provided files. Please try again with different files."

/-- Message of line 79: chunking failure. -/
def chunkMsg : String :=
  "Couldn" ++ apos ++ "t split the text into chunks. Please try again with different text."

/-- Message of line 84: embedding failure. -/
def embedMsg : String :=
  "Couldn" ++ apos ++ "t create embeddings from the text. Please try again."

/-- Message of line 89: retrieval failure. -/
def retrieveMsg : String :=
  "Couldn" ++ apos ++
    "t find any relevant chunks for your question. Please try asking a different question."

/-- The `for file in files:` loop of `run` (lines 60-71): skip `None`
entries, resolve a handler per file type, read the file, abort with the
name of the first file yielding empty text, else append the text to the
accumulator.  Returns `Except.error name` on abort, `Except.ok combined`
otherwise, paired with the trace of collaborator calls made by the loop. -/
def readFilesLoop {η κ : Type} (env : Env η κ) :
    List (Option File) → String → Except String String × List Event
  | [], acc => (Except.ok acc, [])
  | none :: rest, acc => readFilesLoop env rest acc
  | some f :: rest, acc =>
      let handler := env.get_file_handler f.type
      let text := env.read_file handler f
      if text = "" then
        (Except.error f.name, [Event.getFileHandler f.type, Event.readFile f.name])
      else
        let r := readFilesLoop env rest (acc ++ text)
        (r.1, Event.getFileHandler f.type :: Event.readFile f.name :: r.2)

/-- Straight-line code of `run` after the `for` loop (lines 66-90 of
`flow_coordinator.py`), on the loop result: the early return naming the
failing file, the `combined_text` emptiness check, then chunking,
embedding, retrieval and the QA chain, each short-circuiting on a
falsy result. -/
def pipelineTail {η κ : Type} (env : Env η κ) (user_question : String) :
    Except String String × List Event → RunResult
  | (Except.error name, tr) =>
      ⟨some (extractionMsg name), tr, ExitPoint.extractionFailure name⟩
  | (Except.ok combined_text, tr) =>
      if combined_text = "" then
        ⟨some noTextMsg, tr, ExitPoint.emptyCombined⟩
      else
        let chunks := env.split_text combined_text
        let tr1 := tr ++ [Event.splitText combined_text]
        if chunks = [] then
          ⟨some chunkMsg, tr1, ExitPoint.chunkingFailure⟩
        else
          let knowledge_base := env.create_embeddings chunks
          let tr2 := tr1 ++ [Event.createEmbeddings chunks]
          if env.kb_truthy knowledge_base = false then
            ⟨some embedMsg, tr2, ExitPoint.embeddingFailure⟩
          else
            let docs := env.get_relative_chunks knowledge_base user_question
            let tr3 := tr2 ++ [Event.getRelativeChunks user_question]
            if docs = [] then
              ⟨some retrieveMsg, tr3, ExitPoint.retrievalFailure⟩
            else
              ⟨some (env.run_chain docs user_question),
                tr3 ++ [Event.runChain docs user_question], ExitPoint.success⟩

/-- Shallow embedding of `FlowCoordinator.run(self, files, user_question)`
(lines 46-90 of `flow_coordinator.py`).  `files` is the Python list of
uploaded files (entries may be `None`); truthiness of `files` is
non-emptiness, truthiness of `user_question` is non-emptiness. -/
def FlowCoordinator.run {η κ : Type} (env : Env η κ)
    (files : List (Option File)) (user_question : String) : RunResult :=
  if files ≠ [] ∧ files.length > 3 then
    ⟨some maxFilesMsg, [], ExitPoint.tooManyFiles⟩
  else if user_question ≠ "" ∧ files ≠ [] then
    pipelineTail env user_question (readFilesLoop env files "")
  else
    ⟨none, [], ExitPoint.fallThrough⟩

/-- The text a given file extracts to: `handler.read_file(file)` with the
handler resolved from the file type. -/
def extractedText {η κ : Type} (env : Env η κ) (f : File) : String :=
  env.read_file (env.get_file_handler f.type) f

/-- Concatenation of the extracted texts of the non-`None` files, in list
order: the value `combined_text` has after a fully successful loop. -/
def extractedConcat {η κ : Type} (env : Env η κ) : List (Option File) → String
  | [] => ""
  | none :: rest => extractedConcat env rest
  | some f :: rest => extractedText env f ++ extractedConcat env rest

/-- Trace the loop produces when it reads every non-`None` file of the
list (two events per non-`None` file, in list order). -/
def readTrace {η κ : Type} (env : Env η κ) : List (Option File) → List Event
  | [] => []
  | none :: rest => readTrace env rest
  | some f :: rest =>
      Event.getFileHandler f.type :: Event.readFile f.name :: readTrace env rest

/-- Events that the read loop can emit (handler resolution and file reads). -/
def readPhase : Event → Bool
  | Event.getFileHandler _ => true
  | Event.readFile _ => true
  | _ => false

/-- Helper: a string with a non-empty left factor is non-empty. -/
theorem append_ne_empty_left (s t : String) (h : s ≠ "") : s ++ t ≠ "" := by
  intro hc
  apply h
  have hl : (s ++ t).length = 0 := by rw [hc]; rfl
  rw [String.length_append] at hl
  have hs : s.length = 0 := by omega
  cases s with
  | mk d =>
    cases d with
    | nil => rfl
    | cons c cs => simp [String.length] at hs

/-- Helper: `readTrace` distributes over list append. -/
theorem readTrace_append {η κ : Type} (env : Env η κ) (a b : List (Option File)) :
    readTrace env (a ++ b) = readTrace env a ++ readTrace env b := by
  induction a with
  | nil => simp [readTrace]
  | cons x rest ih =>
    cases x with
    | none => simpa [readTrace] using ih
    | some f => simp [readTrace, ih]

/-- Helper: if every non-`None` file extracts non-empty text, the loop
succeeds, returning the accumulator followed by the concatenated texts,
with the full read trace. -/
theorem readFilesLoop_ok {η κ : Type} (env : Env η κ) (files : List (Option File))
    (hall : ∀ f : File, some f ∈ files → extractedText env f ≠ "") :
    ∀ acc : String,
      readFilesLoop env files acc =
        (Except.ok (acc ++ extractedConcat env files), readTrace env files) := by
  induction files with
  | nil => intro acc; simp [readFilesLoop, extractedConcat, readTrace]
  | cons x rest ih =>
    intro acc
    cases x with
    | none =>
      have := ih (fun f hf => hall f (List.mem_cons_of_mem _ hf)) acc
      simpa [readFilesLoop, extractedConcat, readTrace] using this
    | some f =>
      have hf : extractedText env f ≠ "" := hall f (List.mem_cons_self _ _)
      have ihr := ih (fun g hg => hall g (List.mem_cons_of_mem _ hg))
        (acc ++ extractedText env f)
      simp only [readFilesLoop, extractedConcat, readTrace]
      rw [if_neg (by simpa [extractedText] using hf)]
      simp only [extractedText] at ihr
      rw [ihr]
      simp [String.append_assoc, extractedText]

/-- Helper: the loop aborts at the first non-`None` file extracting empty
text, returning an error carrying that file name and a trace that covers
exactly the prefix up to and including the failing file; files after it
are never read. -/
theorem readFilesLoop_err {η κ : Type} (env : Env η κ)
    (pre : List (Option File)) (f : File) (post : List (Option File))
    (hpre : ∀ g : File, some g ∈ pre → extractedText env g ≠ "")
    (hf : extractedText env f = "") :
    ∀ acc : String,
      readFilesLoop env (pre ++ some f :: post) acc =
        (Except.error f.name, readTrace env (pre ++ [some f])) := by
  induction pre with
  | nil =>
    intro acc
    simp only [List.nil_append, readFilesLoop, readTrace]
    rw [if_pos (by simpa [extractedText] using hf)]
  | cons x rest ih =>
    intro acc
    cases x with
    | none =>
      have := ih (fun g hg => hpre g (List.mem_cons_of_mem _ hg)) acc
      simpa [readFilesLoop, readTrace] using this
    | some g =>
      have hg : extractedText env g ≠ "" := hpre g (List.mem_cons_self _ _)
      have ihr := ih (fun k hk => hpre k (List.mem_cons_of_mem _ hk))
        (acc ++ extractedText env g)
      simp only [List.cons_append, readFilesLoop, readTrace, List.append_eq]
      rw [if_neg (by simpa [extractedText] using hg)]
      simp only [extractedText] at ihr
      rw [ihr]

/-- Helper: every event emitted by the read loop is a handler resolution
or a file read; the loop never invokes a later pipeline stage. -/
theorem readFilesLoop_phase {η κ : Type} (env : Env η κ) (files : List (Option File)) :
    ∀ acc : String, ∀ e ∈ (readFilesLoop env files acc).2, readPhase e = true := by
  induction files with
  | nil => intro acc e he; simp [readFilesLoop] at he
  | cons x rest ih =>
    intro acc e he
    cases x with
    | none => exact ih acc e (by simpa [readFilesLoop] using he)
    | some f =>
      by_cases hf : env.read_file (env.get_file_handler f.type) f = ""
      · simp only [readFilesLoop] at he
        rw [if_pos hf] at he
        simp at he
        rcases he with h | h <;> simp [h, readPhase]
      · simp only [readFilesLoop] at he
        rw [if_neg hf] at he
        simp at he
        rcases he with h | h | h
        · simp [h, readPhase]
        · simp [h, readPhase]
        · exact ih _ e h

/-- Helper: when the question is non-empty and 1-3 files are supplied,
`run` is the pipeline tail applied to the read-loop result. -/
theorem run_guards {η κ : Type} (env : Env η κ) (files : List (Option File))
    (q : String) (hq : q ≠ "") (hf : files ≠ []) (hlen : files.length ≤ 3) :
    FlowCoordinator.run env files q = pipelineTail env q (readFilesLoop env files "") := by
  unfold FlowCoordinator.run
  have h1 : ¬(files ≠ [] ∧ files.length > 3) := fun hc => absurd hc.2 (by omega)
  rw [if_neg h1, if_pos ⟨hq, hf⟩]

/-- Trivial concrete environment used by witnesses: every file reads
empty, every stage returns its falsy value. -/
def unitEnv : Env Unit Bool where
  get_file_handler := fun _ => ()
  read_file := fun _ _ => ""
  split_text := fun _ => []
  create_embeddings := fun _ => false
  kb_truthy := fun b => b
  get_relative_chunks := fun _ _ => []
  run_chain := fun _ _ => ""

/-- Concrete file of the end-to-end scenario whose handler returns
"Alpha text.". -/
def fileA : File := ⟨"txt", "a.txt"⟩

/-- Concrete file of the end-to-end scenario whose handler returns
"Beta text.". -/
def fileB : File := ⟨"txt", "b.txt"⟩

/-- Concrete file whose handler extracts no text. -/
def fileC : File := ⟨"pdf", "c.pdf"⟩

/-- C2: for every files list longer than 3 elements and every question
(an empty question included), `run` returns exactly the fixed
"Please upload a maximum of 3 files" message with an empty trace: no
collaborator, in particular neither `get_file_handler` nor `read_file`,
is ever invoked. -/
theorem run_too_many_files {η κ : Type} (env : Env η κ) (files : List (Option File))
    (q : String) (hlen : files.length > 3) :
    FlowCoordinator.run env files q =
      ⟨some maxFilesMsg, [], ExitPoint.tooManyFiles⟩ := by
  have hf : files ≠ [] := by intro h; rw [h] at hlen; simp at hlen
  unfold FlowCoordinator.run
  rw [if_pos ⟨hf, hlen⟩]

/-- Witness for C2 at a concrete 4-element file list and empty question. -/
theorem run_too_many_files_witness :
    ([none, none, none, none] : List (Option File)).length > 3 ∧
      FlowCoordinator.run unitEnv [none, none, none, none] "" =
        ⟨some maxFilesMsg, [], ExitPoint.tooManyFiles⟩ :=
  ⟨by decide, run_too_many_files unitEnv [none, none, none, none] "" (by decide)⟩

/-- C4: when `files` is empty (falsy) or the question is empty, and at
most 3 files are supplied, `run` falls through without an explicit
return: the output is `none` and the trace is empty, so none of
`get_file_handler`, `read_file`, `split_text`, `create_embeddings`,
`get_relative_chunks`, `run_chain` is invoked. -/
theorem run_fall_through {η κ : Type} (env : Env η κ) (files : List (Option File))
    (q : String) (h : files = [] ∨ q = "") (hlen : files.length ≤ 3) :
    FlowCoordinator.run env files q = ⟨none, [], ExitPoint.fallThrough⟩ := by
  unfold FlowCoordinator.run
  have h1 : ¬(files ≠ [] ∧ files.length > 3) := fun hc => absurd hc.2 (by omega)
  have h2 : ¬(q ≠ "" ∧ files ≠ []) := by
    rcases h with h | h
    · exact fun hc => hc.2 h
    · exact fun hc => hc.1 h
  rw [if_neg h1, if_neg h2]

/-- Witness for C4: one file supplied but an empty question. -/
theorem run_fall_through_witness :
    (([some fileA] : List (Option File)) = [] ∨ ("" : String) = "") ∧
      ([some fileA] : List (Option File)).length ≤ 3 ∧
      FlowCoordinator.run unitEnv [some fileA] "" = ⟨none, [], ExitPoint.fallThrough⟩ :=
  ⟨Or.inr rfl, by decide,
    run_fall_through unitEnv [some fileA] "" (Or.inr rfl) (by decide)⟩

/-- Concrete environment realising the end-to-end scenario of the spec:
handlers return "Alpha text." for `fileA` and "Beta text." for `fileB`,
the splitter returns those two chunks for their concatenation, embedding
returns a truthy knowledge base, retrieval returns both chunks for
"What is Alpha?", and the chain runner answers "Alpha is a thing.". -/
def specEnv : Env Unit Bool where
  get_file_handler := fun _ => ()
  read_file := fun _ f =>
    if f.name = "a.txt" then "Alpha text."
    else if f.name = "b.txt" then "Beta text."
    else ""
  split_text := fun t =>
    if t = "Alpha text.Beta text." then ["Alpha text.", "Beta text."] else []
  create_embeddings := fun _ => true
  kb_truthy := fun b => b
  get_relative_chunks := fun _ q =>
    if q = "What is Alpha?" then ["Alpha text.", "Beta text."] else []
  run_chain := fun docs q =>
    if docs = ["Alpha text.", "Beta text."] then
      if q = "What is Alpha?" then "Alpha is a thing." else ""
    else ""

/-- C1: on the full success path (non-empty question, 1-3 files, the
loop succeeding with non-empty combined text, non-empty chunks, truthy
knowledge base, non-empty retrieved docs), `run` returns exactly the
string produced by `run_chain` on the retrieved docs and the question,
with no further validation or modification. -/
theorem run_success_returns_chain {η κ : Type} (env : Env η κ)
    (files : List (Option File)) (q : String) (combined : String) (tr : List Event)
    (hq : q ≠ "") (hf : files ≠ []) (hlen : files.length ≤ 3)
    (hread : readFilesLoop env files "" = (Except.ok combined, tr))
    (hcomb : combined ≠ "")
    (hchunks : env.split_text combined ≠ [])
    (hkb : env.kb_truthy (env.create_embeddings (env.split_text combined)) = true)
    (hdocs : env.get_relative_chunks (env.create_embeddings (env.split_text combined)) q ≠ []) :
    (FlowCoordinator.run env files q).output =
      some (env.run_chain
        (env.get_relative_chunks (env.create_embeddings (env.split_text combined)) q) q) := by
  rw [run_guards env files q hq hf hlen, hread]
  simp only [pipelineTail]
  rw [if_neg hcomb, if_neg hchunks, if_neg (by rw [hkb]; simp), if_neg hdocs]

/-- Witness for C1: the spec's end-to-end scenario returns exactly
"Alpha is a thing.". -/
theorem run_success_returns_chain_witness :
    ("What is Alpha?" : String) ≠ "" ∧
      (FlowCoordinator.run specEnv [some fileA, some fileB] "What is Alpha?").output =
        some "Alpha is a thing." := by
  constructor
  · decide
  · have h := run_success_returns_chain specEnv [some fileA, some fileB] "What is Alpha?"
      "Alpha text.Beta text."
      [Event.getFileHandler "txt", Event.readFile "a.txt",
        Event.getFileHandler "txt", Event.readFile "b.txt"]
      (by decide) (by decide) (by decide) (by rfl) (by decide) (by decide)
      (by decide) (by decide)
    rw [h]
    rfl

/-- C3: if the question is non-empty, at most 3 files are supplied, every
non-`None` file before some file `f` extracts non-empty text and `f`
extracts empty text, then `run` returns exactly the message naming
`f.name`, its trace covers only the files up to and including `f` (files
after `f` are never read, no later stage runs), and the text already
extracted from the earlier files is discarded: the output is the fixed
message, independent of that text. -/
theorem run_extraction_failure {η κ : Type} (env : Env η κ)
    (pre : List (Option File)) (f : File) (post : List (Option File)) (q : String)
    (hq : q ≠ "") (hlen : (pre ++ some f :: post).length ≤ 3)
    (hpre : ∀ g : File, some g ∈ pre → extractedText env g ≠ "")
    (hf : extractedText env f = "") :
    FlowCoordinator.run env (pre ++ some f :: post) q =
      ⟨some (extractionMsg f.name), readTrace env (pre ++ [some f]),
        ExitPoint.extractionFailure f.name⟩ := by
  have hne : (pre ++ some f :: post) ≠ [] := by simp
  rw [run_guards env _ q hq hne hlen,
    readFilesLoop_err env pre f post hpre hf ""]
  rfl

/-- Witness for C3: first file reads fine, second file extracts nothing,
third file is never read; the answer names the second file only. -/
theorem run_extraction_failure_witness :
    extractedText specEnv fileC = "" ∧
      FlowCoordinator.run specEnv [some fileA, some fileC, some fileB] "What is Alpha?" =
        ⟨some (extractionMsg "c.pdf"),
          [Event.getFileHandler "txt", Event.readFile "a.txt",
            Event.getFileHandler "pdf", Event.readFile "c.pdf"],
          ExitPoint.extractionFailure "c.pdf"⟩ := by
  constructor
  · rfl
  · have h := run_extraction_failure specEnv [some fileA] fileC [some fileB]
      "What is Alpha?" (by decide) (by decide)
      (by intro g hg; simp at hg; subst hg; decide) (by rfl)
    exact h

/-- Helper: any event in a trace produced by the read loop is a handler
resolution or a file read. -/
theorem readLoopTrace_phase {η κ : Type} (env : Env η κ) (files : List (Option File))
    (r : Except String String) (tr : List Event)
    (hread : readFilesLoop env files "" = (r, tr)) :
    ∀ e ∈ tr, readPhase e = true := by
  intro e he
  have h2 : e ∈ (readFilesLoop env files "").2 := by rw [hread]; exact he
  exact readFilesLoop_phase env files "" e h2

/-- Environment for the embedding-failure witness: one readable file, the
splitter returns the whole text as one chunk, embedding yields a falsy
knowledge base. -/
def embedFailEnv : Env Unit Bool where
  get_file_handler := fun _ => ()
  read_file := fun _ f => if f.name = "a.txt" then "Alpha text." else ""
  split_text := fun t => [t]
  create_embeddings := fun _ => false
  kb_truthy := fun b => b
  get_relative_chunks := fun _ _ => []
  run_chain := fun _ _ => ""

/-- C5: whenever all stages before embedding succeed but
`create_embeddings` yields a falsy knowledge base, `run` returns exactly
the embedding-failure message and `get_relative_chunks` is never
invoked. -/
theorem run_embedding_failure {η κ : Type} (env : Env η κ)
    (files : List (Option File)) (q : String) (combined : String) (tr : List Event)
    (hq : q ≠ "") (hf : files ≠ []) (hlen : files.length ≤ 3)
    (hread : readFilesLoop env files "" = (Except.ok combined, tr))
    (hcomb : combined ≠ "") (hchunks : env.split_text combined ≠ [])
    (hkb : env.kb_truthy (env.create_embeddings (env.split_text combined)) = false) :
    FlowCoordinator.run env files q =
      ⟨some embedMsg,
        tr ++ [Event.splitText combined, Event.createEmbeddings (env.split_text combined)],
        ExitPoint.embeddingFailure⟩ ∧
      ∀ q2 : String, Event.getRelativeChunks q2 ∉ (FlowCoordinator.run env files q).trace := by
  have hrun : FlowCoordinator.run env files q =
      ⟨some embedMsg,
        tr ++ [Event.splitText combined, Event.createEmbeddings (env.split_text combined)],
        ExitPoint.embeddingFailure⟩ := by
    rw [run_guards env files q hq hf hlen, hread]
    simp only [pipelineTail]
    rw [if_neg hcomb, if_neg hchunks, if_pos hkb]
    simp
  refine ⟨hrun, ?_⟩
  intro q2 hmem
  rw [hrun] at hmem
  simp only [List.mem_append, List.mem_cons, List.mem_singleton] at hmem
  rcases hmem with h | h
  · have := readLoopTrace_phase env files (Except.ok combined) tr hread _ h
    simp [readPhase] at this
  · simp at h

/-- Witness for C5: the falsy knowledge base aborts before retrieval. -/
theorem run_embedding_failure_witness :
    embedFailEnv.kb_truthy
        (embedFailEnv.create_embeddings (embedFailEnv.split_text "Alpha text.")) = false ∧
      FlowCoordinator.run embedFailEnv [some fileA] "Q" =
        ⟨some embedMsg,
          [Event.getFileHandler "txt", Event.readFile "a.txt",
            Event.splitText "Alpha text.", Event.createEmbeddings ["Alpha text."]],
          ExitPoint.embeddingFailure⟩ := by
  refine ⟨by decide, ?_⟩
  have h := run_embedding_failure embedFailEnv [some fileA] "Q" "Alpha text."
    [Event.getFileHandler "txt", Event.readFile "a.txt"]
    (by decide) (by decide) (by decide) (by rfl) (by decide) (by decide) (by decide)
  rw [h.1]
  decide

/-- Environment for the retrieval-failure witness: readable file,
one-chunk splitter, truthy knowledge base, retrieval finds nothing. -/
def retrieveFailEnv : Env Unit Bool where
  get_file_handler := fun _ => ()
  read_file := fun _ f => if f.name = "a.txt" then "Alpha text." else ""
  split_text := fun t => [t]
  create_embeddings := fun _ => true
  kb_truthy := fun b => b
  get_relative_chunks := fun _ _ => []
  run_chain := fun _ _ => ""

/-- C6: whenever the knowledge base is truthy but `get_relative_chunks`
returns no chunks for the question, `run` returns exactly the
retrieval-failure message and `run_chain` is never invoked. -/
theorem run_retrieval_failure {η κ : Type} (env : Env η κ)
    (files : List (Option File)) (q : String) (combined : String) (tr : List Event)
    (hq : q ≠ "") (hf : files ≠ []) (hlen : files.length ≤ 3)
    (hread : readFilesLoop env files "" = (Except.ok combined, tr))
    (hcomb : combined ≠ "") (hchunks : env.split_text combined ≠ [])
    (hkb : env.kb_truthy (env.create_embeddings (env.split_text combined)) = true)
    (hdocs : env.get_relative_chunks (env.create_embeddings (env.split_text combined)) q = []) :
    FlowCoordinator.run env files q =
      ⟨some retrieveMsg,
        tr ++ [Event.splitText combined,
          Event.createEmbeddings (env.split_text combined), Event.getRelativeChunks q],
        ExitPoint.retrievalFailure⟩ ∧
      ∀ (docs : List String) (q2 : String),
        Event.runChain docs q2 ∉ (FlowCoordinator.run env files q).trace := by
  have hrun : FlowCoordinator.run env files q =
      ⟨some retrieveMsg,
        tr ++ [Event.splitText combined,
          Event.createEmbeddings (env.split_text combined), Event.getRelativeChunks q],
        ExitPoint.retrievalFailure⟩ := by
    rw [run_guards env files q hq hf hlen, hread]
    simp only [pipelineTail]
    rw [if_neg hcomb, if_neg hchunks, if_neg (by rw [hkb]; simp), if_pos hdocs]
    simp
  refine ⟨hrun, ?_⟩
  intro docs q2 hmem
  rw [hrun] at hmem
  simp only [List.mem_append, List.mem_cons, List.mem_singleton] at hmem
  rcases hmem with h | h
  · have := readLoopTrace_phase env files (Except.ok combined) tr hread _ h
    simp [readPhase] at this
  · simp at h

/-- Witness for C6: empty retrieval aborts before the QA chain. -/
theorem run_retrieval_failure_witness :
    retrieveFailEnv.get_relative_chunks
        (retrieveFailEnv.create_embeddings (retrieveFailEnv.split_text "Alpha text.")) "Q"
        = [] ∧
      FlowCoordinator.run retrieveFailEnv [some fileA] "Q" =
        ⟨some retrieveMsg,
          [Event.getFileHandler "txt", Event.readFile "a.txt",
            Event.splitText "Alpha text.", Event.createEmbeddings ["Alpha text."],
            Event.getRelativeChunks "Q"],
          ExitPoint.retrievalFailure⟩ := by
  refine ⟨by decide, ?_⟩
  have h := run_retrieval_failure retrieveFailEnv [some fileA] "Q" "Alpha text."
    [Event.getFileHandler "txt", Event.readFile "a.txt"]
    (by decide) (by decide) (by decide) (by rfl) (by decide) (by decide) (by decide)
    (by decide)
  rw [h.1]
  decide

/-- Environment for the chunking-failure witness: readable file, the
splitter always returns no chunks. -/
def chunkFailEnv : Env Unit Bool where
  get_file_handler := fun _ => ()
  read_file := fun _ f => if f.name = "a.txt" then "Alpha text." else ""
  split_text := fun _ => []
  create_embeddings := fun _ => true
  kb_truthy := fun b => b
  get_relative_chunks := fun _ _ => []
  run_chain := fun _ _ => ""

/-- C7: whenever the combined text is non-empty but `split_text` returns
no chunks, `run` returns exactly the chunking-failure message and none of
`create_embeddings`, `get_relative_chunks`, `run_chain` is invoked. -/
theorem run_chunking_failure {η κ : Type} (env : Env η κ)
    (files : List (Option File)) (q : String) (combined : String) (tr : List Event)
    (hq : q ≠ "") (hf : files ≠ []) (hlen : files.length ≤ 3)
    (hread : readFilesLoop env files "" = (Except.ok combined, tr))
    (hcomb : combined ≠ "") (hchunks : env.split_text combined = []) :
    FlowCoordinator.run env files q =
      ⟨some chunkMsg, tr ++ [Event.splitText combined], ExitPoint.chunkingFailure⟩ ∧
      (∀ c : List String, Event.createEmbeddings c ∉ (FlowCoordinator.run env files q).trace) ∧
      (∀ q2 : String, Event.getRelativeChunks q2 ∉ (FlowCoordinator.run env files q).trace) ∧
      ∀ (docs : List String) (q2 : String),
        Event.runChain docs q2 ∉ (FlowCoordinator.run env files q).trace := by
  have hrun : FlowCoordinator.run env files q =
      ⟨some chunkMsg, tr ++ [Event.splitText combined], ExitPoint.chunkingFailure⟩ := by
    rw [run_guards env files q hq hf hlen, hread]
    simp only [pipelineTail]
    rw [if_neg hcomb, if_pos hchunks]
  refine ⟨hrun, ?_, ?_, ?_⟩
  · intro c hmem
    rw [hrun] at hmem
    simp only [List.mem_append, List.mem_singleton] at hmem
    rcases hmem with h | h
    · have := readLoopTrace_phase env files (Except.ok combined) tr hread _ h
      simp [readPhase] at this
    · simp at h
  · intro q2 hmem
    rw [hrun] at hmem
    simp only [List.mem_append, List.mem_singleton] at hmem
    rcases hmem with h | h
    · have := readLoopTrace_phase env files (Except.ok combined) tr hread _ h
      simp [readPhase] at this
    · simp at h
  · intro docs q2 hmem
    rw [hrun] at hmem
    simp only [List.mem_append, List.mem_singleton] at hmem
    rcases hmem with h | h
    · have := readLoopTrace_phase env files (Except.ok combined) tr hread _ h
      simp [readPhase] at this
    · simp at h

/-- Witness for C7: an empty chunk list aborts before embedding. -/
theorem run_chunking_failure_witness :
    chunkFailEnv.split_text "Alpha text." = [] ∧
      FlowCoordinator.run chunkFailEnv [some fileA] "Q" =
        ⟨some chunkMsg,
          [Event.getFileHandler "txt", Event.readFile "a.txt",
            Event.splitText "Alpha text."],
          ExitPoint.chunkingFailure⟩ := by
  refine ⟨by decide, ?_⟩
  have h := run_chunking_failure chunkFailEnv [some fileA] "Q" "Alpha text."
    [Event.getFileHandler "txt", Event.readFile "a.txt"]
    (by decide) (by decide) (by decide) (by rfl) (by decide) (by decide)
  rw [h.1]
  decide

/-- Helper: if some non-`None` file is present and every non-`None` file
extracts non-empty text, the concatenated text is non-empty. -/
theorem extractedConcat_ne_empty {η κ : Type} (env : Env η κ) (files : List (Option File))
    (hall : ∀ f : File, some f ∈ files → extractedText env f ≠ "")
    (f0 : File) (hf0 : some f0 ∈ files) : extractedConcat env files ≠ "" := by
  induction files with
  | nil => simp at hf0
  | cons x rest ih =>
    cases x with
    | none =>
      have hf0r : some f0 ∈ rest := by simpa using hf0
      have := ih (fun g hg => hall g (List.mem_cons_of_mem _ hg)) hf0r
      simpa [extractedConcat] using this
    | some g =>
      simp only [extractedConcat]
      exact append_ne_empty_left _ _ (hall g (List.mem_cons_self _ _))

/-- Helper: if every entry of the list is `None`, no text is collected. -/
theorem extractedConcat_all_none {η κ : Type} (env : Env η κ) (files : List (Option File))
    (hnone : ∀ x ∈ files, x = none) : extractedConcat env files = "" := by
  induction files with
  | nil => rfl
  | cons x rest ih =>
    have hx := hnone x (List.mem_cons_self _ _)
    subst hx
    simpa [extractedConcat] using ih (fun y hy => hnone y (List.mem_cons_of_mem _ hy))

/-- Helper: either every non-`None` file extracts non-empty text, or the
list decomposes at the first non-`None` file extracting empty text. -/
theorem readFiles_cases {η κ : Type} (env : Env η κ) (files : List (Option File)) :
    (∀ f : File, some f ∈ files → extractedText env f ≠ "") ∨
      ∃ (pre : List (Option File)) (f : File) (post : List (Option File)),
        files = pre ++ some f :: post ∧
          (∀ g : File, some g ∈ pre → extractedText env g ≠ "") ∧
          extractedText env f = "" := by
  induction files with
  | nil => left; intro f hf; simp at hf
  | cons x rest ih =>
    cases x with
    | none =>
      rcases ih with h | ⟨pre, f, post, heq, hpre, hf⟩
      · left
        intro f hf
        have : some f ∈ rest := by simpa using hf
        exact h f this
      · right
        refine ⟨none :: pre, f, post, by rw [heq]; rfl, ?_, hf⟩
        intro g hg
        have : some g ∈ pre := by simpa using hg
        exact hpre g this
    | some g =>
      by_cases hg : extractedText env g = ""
      · right
        exact ⟨[], g, rest, rfl, by intro k hk; simp at hk, hg⟩
      · rcases ih with h | ⟨pre, f, post, heq, hpre, hf⟩
        · left
          intro f hf
          rcases List.mem_cons.mp hf with he | hm
          · rw [Option.some_inj.mp he.symm] at hg
            exact fun hc => hg hc
          · exact h f hm
        · right
          refine ⟨some g :: pre, f, post, by rw [heq]; rfl, ?_, hf⟩
          intro k hk
          rcases List.mem_cons.mp hk with he | hm
          · rw [Option.some_inj.mp he.symm] at hg
            exact fun hc => hg hc
          · exact hpre k hm

/-- C8: when the question is non-empty, at most 3 files are supplied, at
least one entry is not `None` and every non-`None` file extracts
non-empty text, `split_text` is invoked on exactly the concatenation of
the individual extracted texts in list (upload) order. -/
theorem run_combined_text_concat {η κ : Type} (env : Env η κ)
    (files : List (Option File)) (q : String)
    (hq : q ≠ "") (hlen : files.length ≤ 3)
    (hall : ∀ f : File, some f ∈ files → extractedText env f ≠ "")
    (hex : ∃ f : File, some f ∈ files) :
    Event.splitText (extractedConcat env files) ∈ (FlowCoordinator.run env files q).trace := by
  obtain ⟨f0, hf0⟩ := hex
  have hne : files ≠ [] := by intro h; rw [h] at hf0; simp at hf0
  have hread := readFilesLoop_ok env files hall ""
  rw [String.empty_append] at hread
  have hcne : extractedConcat env files ≠ "" := extractedConcat_ne_empty env files hall f0 hf0
  rw [run_guards env files q hq hne hlen, hread]
  simp only [pipelineTail]
  rw [if_neg hcne]
  by_cases h1 : env.split_text (extractedConcat env files) = []
  · rw [if_pos h1]; simp
  · rw [if_neg h1]
    by_cases h2 : env.kb_truthy (env.create_embeddings
        (env.split_text (extractedConcat env files))) = false
    · rw [if_pos h2]; simp
    · rw [if_neg h2]
      by_cases h3 : env.get_relative_chunks (env.create_embeddings
          (env.split_text (extractedConcat env files))) q = []
      · rw [if_pos h3]; simp
      · rw [if_neg h3]; simp

/-- Witness for C8: the two scenario files are concatenated in upload
order before splitting. -/
theorem run_combined_text_concat_witness :
    (∃ f : File, some f ∈ ([some fileA, some fileB] : List (Option File))) ∧
      Event.splitText (extractedConcat specEnv [some fileA, some fileB]) ∈
        (FlowCoordinator.run specEnv [some fileA, some fileB] "What is Alpha?").trace :=
  ⟨⟨fileA, by simp⟩,
    run_combined_text_concat specEnv [some fileA, some fileB] "What is Alpha?"
      (by decide) (by decide)
      (by intro f hf; simp at hf; rcases hf with h | h <;> subst h <;> decide)
      ⟨fileA, by simp⟩⟩

/-- The `run` method as a call on the coordinator object: the Python body
of `run` contains no assignment to `self`, so the coordinator state (the
collaborator environment) after the call is the state before it. -/
def FlowCoordinator.runMethod {η κ : Type} (env : Env η κ)
    (files : List (Option File)) (user_question : String) : Env η κ × RunResult :=
  (env, FlowCoordinator.run env files user_question)

/-- C9: with deterministic (pure) collaborators, two sequential calls of
`run` with identical files and question return identical output: the
second call, made in the coordinator state left behind by the first,
produces the same result. -/
theorem run_sequential_idempotent {η κ : Type} (env : Env η κ)
    (files : List (Option File)) (q : String) :
    (FlowCoordinator.runMethod (FlowCoordinator.runMethod env files q).1 files q).2 =
      (FlowCoordinator.runMethod env files q).2 := rfl

/-- C10: the branch returning the generic "no text extracted" message is
reached exactly when the question is non-empty and the files list is
non-empty, has at most 3 entries, and consists only of `None` entries;
hence with at least one non-`None` file that branch is unreachable. -/
theorem run_empty_combined_characterization {η κ : Type} (env : Env η κ)
    (files : List (Option File)) (q : String) :
    (FlowCoordinator.run env files q).exit = ExitPoint.emptyCombined ↔
      q ≠ "" ∧ files ≠ [] ∧ files.length ≤ 3 ∧ ∀ x ∈ files, x = none := by
  constructor
  · intro hexit
    by_cases h1 : files ≠ [] ∧ files.length > 3
    · rw [FlowCoordinator.run, if_pos h1] at hexit
      simp at hexit
    · by_cases h2 : q ≠ "" ∧ files ≠ []
      · obtain ⟨hq, hfne⟩ := h2
        have hlen : files.length ≤ 3 := by
          rcases not_and_or.mp h1 with h | h
          · exact absurd (not_not.mp h) hfne
          · omega
        refine ⟨hq, hfne, hlen, ?_⟩
        intro x hx
        by_contra hxn
        obtain ⟨f0, rfl⟩ : ∃ f : File, x = some f := by
          cases x with
          | none => exact absurd rfl hxn
          | some f => exact ⟨f, rfl⟩
        rcases readFiles_cases env files with hall | ⟨pre, f, post, heq, hpre, hf⟩
        · have hread := readFilesLoop_ok env files hall ""
          rw [String.empty_append] at hread
          have hcne : extractedConcat env files ≠ "" :=
            extractedConcat_ne_empty env files hall f0 hx
          rw [run_guards env files q hq hfne hlen, hread] at hexit
          simp only [pipelineTail] at hexit
          rw [if_neg hcne] at hexit
          by_cases g1 : env.split_text (extractedConcat env files) = []
          · rw [if_pos g1] at hexit; simp at hexit
          · rw [if_neg g1] at hexit
            by_cases g2 : env.kb_truthy (env.create_embeddings
                (env.split_text (extractedConcat env files))) = false
            · rw [if_pos g2] at hexit; simp at hexit
            · rw [if_neg g2] at hexit
              by_cases g3 : env.get_relative_chunks (env.create_embeddings
                  (env.split_text (extractedConcat env files))) q = []
              · rw [if_pos g3] at hexit; simp at hexit
              · rw [if_neg g3] at hexit; simp at hexit
        · rw [run_guards env files q hq hfne hlen, heq,
            readFilesLoop_err env pre f post hpre hf ""] at hexit
          simp [pipelineTail] at hexit
      · rw [FlowCoordinator.run, if_neg h1, if_neg h2] at hexit
        simp at hexit
  · rintro ⟨hq, hfne, hlen, hnone⟩
    have hall : ∀ f : File, some f ∈ files → extractedText env f ≠ "" := by
      intro f hf
      have := hnone _ hf
      simp at this
    have hread := readFilesLoop_ok env files hall ""
    rw [String.empty_append] at hread
    have hc0 : extractedConcat env files = "" := extractedConcat_all_none env files hnone
    rw [run_guards env files q hq hfne hlen, hread]
    simp only [pipelineTail]
    rw [if_pos hc0]
